import Mathlib

/-!
Shallow embedding of the Time Matrix quiz (src/script.js) and proofs about it.

The script defines several functions twice; in JavaScript the later
declaration wins, so every definition below is translated from the LAST
occurrence of the function in the file (shuffleArray at line 1214,
startGame 1233, displayActivity 1245, selectQuadrant 1290, updateScore 1317,
showNextActivity 1370, changeLanguage 1726, resetGameToLanguage 1757,
endGame 1833, resetGame 1866, and the keydown listener at 1882).

Machine integers do not arise: scores and indices are JS numbers used only
as small non-negative integers, embedded as `Nat`.
-/

namespace TimeMatrix

/-- An activity description as it appears in the data: a plain string, or an
object mapping language codes to strings (`m lang = some s` when the key
`lang` is present with value `s`, `none` when the key is absent). -/
inductive Description where
  | plain (s : String)
  | localized (m : String → Option String)

/-- One activity record: `{ description, correctQuadrant }`. -/
structure Activity where
  description : Description
  correctQuadrant : String

/-- JavaScript `a || b` specialised to string-or-undefined values:
`undefined` and the empty string are falsy, any other string is truthy. -/
def jsOr (a b : Option String) : Option String :=
  match a with
  | some s => if s = "" then b else some s
  | none => b

/-- Content resolution as performed by `displayActivity` (script.js
1256–1265): a plain string is used unchanged; for a localized object the
text is `activity.description[currentLanguage] || activity.description.en`. -/
def resolveDescription (currentLanguage : String) : Description → Option String
  | .plain s => some s
  | .localized m => jsOr (m currentLanguage) (m "en")

/-- The destructuring swap `[a[i], a[j]] = [a[j], a[i]]` (script.js 1224):
when both indices are in range the two cells are exchanged, otherwise the
list is returned unchanged (the loop below only ever uses in-range indices). -/
def listSwap {α : Type} (l : List α) (i j : Nat) : List α :=
  match l[i]?, l[j]? with
  | some a, some b => (l.set i b).set j a
  | _, _ => l

/-- The Fisher–Yates loop of `shuffleArray` (script.js 1219–1225): for `i`
from `length - 1` down to `1`, draw `j` uniformly from `[0, i]` and swap
positions `i` and `j`.  The random source is embedded as a function `rand`;
`rand i % (i + 1)` models `Math.floor(Math.random() * (i + 1))`, which always
lies in `[0, i]`. -/
def fisherYatesLoop {α : Type} (rand : Nat → Nat) : Nat → List α → List α
  | 0, l => l
  | i + 1, l => fisherYatesLoop rand i (listSwap l (i + 1) (rand (i + 1) % (i + 2)))

/-- `shuffleArray` (script.js 1214–1228): copies the input
(`const shuffled = [...array]`) and runs the Fisher–Yates loop on the copy. -/
def shuffleArray {α : Type} (rand : Nat → Nat) (array : List α) : List α :=
  fisherYatesLoop rand (array.length - 1) array

/-- The caller's view of a call to `shuffleArray`: the pair of (the caller's
array binding after the call, the returned array).  The source mutates only
its private copy, so the first component is the unchanged input. -/
def shuffleArrayCall {α : Type} (rand : Nat → Nat) (array : List α) :
    List α × List α :=
  (array, shuffleArray rand array)

/-- Replacing the element at position `k` (which is `b`) by `a` and moving
`b` to the front is a permutation of putting `a` at the front instead. -/
theorem cons_set_perm {α : Type} :
    ∀ (l : List α) (k : Nat) (a b : α), l[k]? = some b →
      (b :: l.set k a).Perm (a :: l) := by
  intro l
  induction l with
  | nil => intro k a b h; simp at h
  | cons x xs ih =>
    intro k a b h
    cases k with
    | zero =>
      simp only [List.getElem?_cons_zero, Option.some.injEq] at h
      rw [List.set_cons_zero, h]
      exact List.Perm.swap a b xs
    | succ k =>
      simp only [List.getElem?_cons_succ] at h
      have hk := ih k a b h
      rw [List.set_cons_succ]
      exact ((List.Perm.swap x b (xs.set k a)).trans
        ((hk.cons x).trans (List.Perm.swap a x xs)))

/-- A swap of two cells is a permutation of the original list. -/
theorem listSwap_perm {α : Type} (l : List α) (i j : Nat) :
    (listSwap l i j).Perm l := by
  unfold listSwap
  cases hi : l[i]? with
  | none => exact List.Perm.refl l
  | some a =>
    cases hj : l[j]? with
    | none => exact List.Perm.refl l
    | some b =>
      simp only
      have hjs : (l.set i b)[j]? = some b := by
        by_cases hij : i = j
        · subst hij
          exact List.getElem?_set_self (List.getElem?_eq_some_iff.mp hi).1
        · rw [List.getElem?_set_ne hij]; exact hj
      have h1 : (b :: (l.set i b).set j a).Perm (a :: l.set i b) :=
        cons_set_perm (l.set i b) j a b hjs
      have h2 : (a :: l.set i b).Perm (b :: l) :=
        cons_set_perm l i b a hi
      exact (h1.trans h2).cons_inv

/-- The whole Fisher–Yates loop permutes its argument. -/
theorem fisherYatesLoop_perm {α : Type} (rand : Nat → Nat) :
    ∀ (n : Nat) (l : List α), (fisherYatesLoop rand n l).Perm l := by
  intro n
  induction n with
  | zero => intro l; exact List.Perm.refl l
  | succ i ih =>
    intro l
    exact (ih _).trans (listSwap_perm l (i + 1) (rand (i + 1) % (i + 2)))

/-- What the main activity area is currently showing: nothing yet (page just
loaded), an activity question, the completion screen rendered by `endGame`,
or the fatal load-error message of `loadActivities`. -/
inductive Screen where
  | loading
  | showing
  | complete
  | errorMsg
deriving DecidableEq

/-- The script's global mutable state (script.js 700–713) plus the two
observable boundaries the proofs need: `pending` counts the
`setTimeout(showNextActivity, 1500)` callbacks that have been scheduled but
have not yet fired, and `presented` logs, in order, every index handed to
`displayActivity`'s rendering path (`currentActivityEl.textContent`). -/
structure GameState where
  activities : List Activity
  shuffled : List Activity
  currentActivityIndex : Nat
  score : Nat
  totalActivities : Nat
  currentLanguage : String
  /-- the language codes present in the loaded `translations` object -/
  langs : List String
  /-- `localStorage` key `timeMatrixLanguage` -/
  savedLanguage : Option String
  pending : Nat
  presented : List Nat
  screen : Screen

/-- `Math.round` for a JS number: floor of `x + 1/2` (halves round up). -/
def mathRound (x : ℚ) : ℤ := ⌊x + 1 / 2⌋

/-- The accuracy percentage rendered by `endGame` (script.js 1840 and 1854):
`Math.round((score / totalActivities) * 100)`. -/
def completionAccuracy (score totalActivities : Nat) : ℤ :=
  mathRound ((score : ℚ) / (totalActivities : ℚ) * 100)

/-- `endGame` (script.js 1833–1861): renders the completion screen with the
final score and `completionAccuracy`, and hides the matrix.  It touches no
session counter. -/
def endGame (s : GameState) : GameState :=
  { s with screen := .complete }

/-- `displayActivity` (script.js 1245–1284): past the end of the shuffled
list it delegates to `endGame`; otherwise it records the new current index,
renders the resolved description (logged in `presented`), updates progress
and clears feedback. -/
def displayActivity (s : GameState) (index : Nat) : GameState :=
  if s.shuffled.length ≤ index then endGame s
  else
    { s with currentActivityIndex := index,
             presented := s.presented ++ [index],
             screen := .showing }

/-- `updateScore` (script.js 1317–1320): `score += points`. -/
def updateScore (s : GameState) (points : Nat) : GameState :=
  { s with score := s.score + points }

/-- `selectQuadrant` (script.js 1290–1311).  It reads
`shuffledActivities[currentActivityIndex]` with no phase guard: when that
cell is `undefined` (empty list, i.e. before content load) the access to
`.correctQuadrant` throws a TypeError, embedded as `none`.  Otherwise it
compares the selected quadrant to `correctQuadrant` with `===`, adds 1 to
the score when equal, shows feedback, and schedules one
`setTimeout(showNextActivity, 1500)` (counted in `pending`).  The returned
`Bool` is the computed `isCorrect`. -/
def selectQuadrant (s : GameState) (selectedQuadrant : String) :
    Option (Bool × GameState) :=
  match s.shuffled[s.currentActivityIndex]? with
  | none => none
  | some currentActivity =>
    let isCorrect := selectedQuadrant == currentActivity.correctQuadrant
    let s1 := if isCorrect then updateScore s 1 else s
    some (isCorrect, { s1 with pending := s1.pending + 1 })

/-- `showNextActivity` (script.js 1370–1381): advance to
`currentActivityIndex + 1`, ending the game when that reaches the end of the
shuffled list. -/
def showNextActivity (s : GameState) : GameState :=
  if s.shuffled.length ≤ s.currentActivityIndex + 1 then endGame s
  else displayActivity s (s.currentActivityIndex + 1)

/-- The event loop running one scheduled `showNextActivity` callback: a
no-op when nothing is pending, otherwise one pending slot is consumed and
`showNextActivity` runs against the globals as they are at fire time (the
source attaches no session tag to the timeout). -/
def timerFire (s : GameState) : GameState :=
  if s.pending = 0 then s
  else { showNextActivity s with pending := s.pending - 1 }

/-- `startGame` (script.js 1233–1239): with zero activities it returns
without presenting anything; otherwise it displays activity 0. -/
def startGame (s : GameState) : GameState :=
  if s.activities.length = 0 then s else displayActivity s 0

/-- `resetGame` (script.js 1866–1876): zero the score and the position, show
the matrix again, and restart via `startGame`.  It does not reshuffle and
does not cancel pending timeouts. -/
def resetGame (s : GameState) : GameState :=
  startGame { s with score := 0, currentActivityIndex := 0 }

/-- `resetGameToLanguage` (script.js 1757–1775): zero the score and the
position, reset the displays, and redisplay activity 0 when any activities
are loaded.  It does not reshuffle and does not cancel pending timeouts. -/
def resetGameToLanguage (s : GameState) : GameState :=
  let s1 : GameState := { s with score := 0, currentActivityIndex := 0 }
  if 0 < s1.activities.length then displayActivity s1 0 else s1

/-- `changeLanguage` (script.js 1726–1752): returns immediately when
`translations[language]` is missing (`language ∉ s.langs`); on success it
sets the current language, persists it to `localStorage`, re-applies the UI
translations, and calls `resetGameToLanguage`. -/
def changeLanguage (s : GameState) (language : String) : GameState :=
  if language ∈ s.langs then
    resetGameToLanguage
      { s with currentLanguage := language, savedLanguage := some language }
  else s

/-- `loadActivities` (script.js 934–986) after a successful fetch delivering
`data.activities`: an empty list fails validation (`No activities found`)
and renders the blocking error message without starting the game; otherwise
the activities are stored, counted, shuffled with fresh randomness, and the
game starts. -/
def loadActivitiesData (s : GameState) (rand : Nat → Nat)
    (data : List Activity) : GameState :=
  if data.length = 0 then { s with screen := .errorMsg }
  else
    startGame
      { s with activities := data,
               totalActivities := data.length,
               shuffled := shuffleArray rand data }

/-- The `quadrantMap` of the keydown listener (script.js 1885–1890). -/
def quadrantMap : Nat → Option String
  | 1 => some "q1"
  | 2 => some "q2"
  | 3 => some "q3"
  | 4 => some "q4"
  | _ => none

/-- The keydown listener (script.js 1882–1895): for the keys 1–4 it calls
`selectQuadrant` with the mapped quadrant code unconditionally — there is no
check that the game is active.  Other keys do nothing. -/
def keydown (s : GameState) (key : Nat) : Option GameState :=
  match quadrantMap key with
  | some quadrant => (selectQuadrant s quadrant).map Prod.snd
  | none => some s

/-- One answered item under the engine's one-answer-per-presented-item
regime: a `selectQuadrant` call followed by the firing of the advance it
scheduled. -/
def answerAdvancePair (s : GameState) (q : String) : Option GameState :=
  (selectQuadrant s q).map fun r => timerFire r.2

/-- Run a whole session: one `answerAdvancePair` per selection in `qs`. -/
def runPairs (s : GameState) : List String → Option GameState
  | [] => some s
  | q :: qs =>
    match answerAdvancePair s q with
    | none => none
    | some s1 => runPairs s1 qs

/-- `k` consecutive `selectQuadrant` calls with the same selection, with no
intervening event (the user clicking `k` times on one displayed item). -/
def answerRepeat (q : String) : Nat → GameState → Option GameState
  | 0, s => some s
  | k + 1, s =>
    match selectQuadrant s q with
    | none => none
    | some r => answerRepeat q k r.2

/-- `k` consecutive firings of scheduled advance callbacks. -/
def fireRepeat : Nat → GameState → GameState
  | 0, s => s
  | k + 1, s => fireRepeat k (timerFire s)

/-! Concrete sample data used by witnesses and counterexamples. -/

def actA : Activity := ⟨.plain "Clean up after a water leak or spill", "q1"⟩

def actB : Activity := ⟨.plain "Scrolling social media for hours", "q4"⟩

def actC : Activity := ⟨.plain "Weekly meal planning", "q2"⟩

/-- A mid-session state: two activities loaded, shuffled into the opposite
order, nothing answered yet. -/
def sTwo : GameState :=
  { activities := [actA, actB]
    shuffled := [actB, actA]
    currentActivityIndex := 0
    score := 0
    totalActivities := 2
    currentLanguage := "en"
    langs := ["en", "pt"]
    savedLanguage := some "en"
    pending := 0
    presented := [0]
    screen := .showing }

/-! Score is written only by `updateScore` inside `selectQuadrant`; every
advance-side operation leaves it alone. -/

theorem score_endGame (t : GameState) : (endGame t).score = t.score := rfl

theorem score_displayActivity (t : GameState) (i : Nat) :
    (displayActivity t i).score = t.score := by
  unfold displayActivity
  split <;> rfl

theorem score_showNextActivity (t : GameState) :
    (showNextActivity t).score = t.score := by
  unfold showNextActivity
  split
  · rfl
  · exact score_displayActivity t _

theorem score_timerFire (t : GameState) : (timerFire t).score = t.score := by
  unfold timerFire
  split
  · rfl
  · exact score_showNextActivity t

/-- C1: `selectQuadrant` reports `isCorrect` true exactly when the selected
quadrant equals the current activity's `correctQuadrant` by exact string
match, adds exactly 1 to the score when correct and 0 otherwise, and none of
the advance-side operations (`timerFire`, `showNextActivity`,
`displayActivity`, `endGame`) mutates the score. -/
theorem selectQuadrant_evaluation (s : GameState) (q : String) (act : Activity)
    (b : Bool) (s' : GameState)
    (hact : s.shuffled[s.currentActivityIndex]? = some act)
    (h : selectQuadrant s q = some (b, s')) :
    (b = true ↔ q = act.correctQuadrant)
    ∧ s'.score = s.score + (if q = act.correctQuadrant then 1 else 0)
    ∧ (∀ (t : GameState) (i : Nat),
        (timerFire t).score = t.score
        ∧ (showNextActivity t).score = t.score
        ∧ (displayActivity t i).score = t.score
        ∧ (endGame t).score = t.score) := by
  unfold selectQuadrant at h
  rw [hact] at h
  simp only [Option.some.injEq, Prod.mk.injEq] at h
  obtain ⟨hb, hs⟩ := h
  constructor
  · rw [← hb]
    exact beq_iff_eq
  refine ⟨?_, fun t i => ⟨score_timerFire t, score_showNextActivity t,
    score_displayActivity t i, score_endGame t⟩⟩
  by_cases hc : q = act.correctQuadrant
  · have : (q == act.correctQuadrant) = true := beq_iff_eq.mpr hc
    rw [← hs]
    simp [this, hc, updateScore]
  · have : (q == act.correctQuadrant) = false := beq_eq_false_iff_ne.mpr hc
    rw [← hs]
    simp [this, hc]

/-- Witness for C1: answering `q4` on `sTwo`, whose current activity is
`actB` with correct quadrant `q4`. -/
theorem selectQuadrant_evaluation_witness :
    (true = true ↔ "q4" = actB.correctQuadrant)
    ∧ ({ sTwo with score := 1, pending := 1 } : GameState).score
        = sTwo.score + (if "q4" = actB.correctQuadrant then 1 else 0)
    ∧ (∀ (t : GameState) (i : Nat),
        (timerFire t).score = t.score
        ∧ (showNextActivity t).score = t.score
        ∧ (displayActivity t i).score = t.score
        ∧ (endGame t).score = t.score) :=
  selectQuadrant_evaluation sTwo "q4" actB true
    { sTwo with score := 1, pending := 1 } rfl rfl

/-- C4: `shuffleArray` leaves the caller's array unchanged and returns a
permutation of it — same multiset of elements, hence same length. -/
theorem shuffleArray_permutes {α : Type} (rand : Nat → Nat) (array : List α) :
    (shuffleArrayCall rand array).1 = array
    ∧ (shuffleArrayCall rand array).2.Perm array
    ∧ (shuffleArrayCall rand array).2.length = array.length :=
  ⟨rfl, fisherYatesLoop_perm rand (array.length - 1) array,
    (fisherYatesLoop_perm rand (array.length - 1) array).length_eq⟩

/-- C7: changing to a language that is not among the loaded translations is
a complete no-op — the previous language, the saved preference, and the
whole session state are retained. -/
theorem changeLanguage_unsupported (s : GameState) (language : String)
    (h : language ∉ s.langs) : changeLanguage s language = s := by
  unfold changeLanguage
  simp [h]

/-- Witness for C7: `changeLanguage sTwo "xx"` leaves the state untouched. -/
theorem changeLanguage_unsupported_witness : changeLanguage sTwo "xx" = sTwo :=
  changeLanguage_unsupported sTwo "xx" (by decide)

/-- The discrete triggers the engine reacts to (a user answer, a scheduled
advance callback firing, the Play-Again button, a language-selector change). -/
inductive Event where
  | answer (q : String)
  | fire
  | reset
  | setLang (l : String)

/-- One event-loop turn; `none` embeds the uncaught TypeError thrown by
`selectQuadrant` when no current activity exists. -/
def step (s : GameState) : Event → Option GameState
  | .answer q => (selectQuadrant s q).map Prod.snd
  | .fire => some (timerFire s)
  | .reset => some (resetGame s)
  | .setLang l => some (changeLanguage s l)

/-- Everything a successful `selectQuadrant` call does to the state: the
score grows by 0 or 1, one advance callback is scheduled, and every other
field is untouched. -/
theorem selectQuadrant_effects (s : GameState) (q : String) (b : Bool)
    (s1 : GameState) (h : selectQuadrant s q = some (b, s1)) :
    s.score ≤ s1.score ∧ s1.score ≤ s.score + 1
    ∧ s1.shuffled = s.shuffled
    ∧ s1.currentActivityIndex = s.currentActivityIndex
    ∧ s1.pending = s.pending + 1
    ∧ s1.activities = s.activities
    ∧ s1.totalActivities = s.totalActivities
    ∧ s1.presented = s.presented
    ∧ s1.screen = s.screen := by
  unfold selectQuadrant at h
  split at h
  · exact Option.noConfusion h
  next act heq =>
    simp only [Option.some.injEq, Prod.mk.injEq] at h
    obtain ⟨-, hs⟩ := h
    subst hs
    by_cases hc : q == act.correctQuadrant
    · simp [hc, updateScore]
    · simp [hc]

theorem answerAdvancePair_score (s : GameState) (q : String) (s' : GameState)
    (h : answerAdvancePair s q = some s') :
    s.score ≤ s'.score ∧ s'.score ≤ s.score + 1 := by
  unfold answerAdvancePair at h
  cases hsel : selectQuadrant s q with
  | none => rw [hsel] at h; exact Option.noConfusion h
  | some r =>
    rw [hsel] at h
    simp only [Option.map_some', Option.some.injEq] at h
    obtain ⟨b, s1⟩ := r
    have he := selectQuadrant_effects s q b s1 hsel
    rw [← h, score_timerFire]
    exact ⟨he.1, he.2.1⟩

theorem runPairs_score_bounds (qs : List String) :
    ∀ (s s' : GameState), runPairs s qs = some s' →
      s.score ≤ s'.score ∧ s'.score ≤ s.score + qs.length := by
  induction qs with
  | nil =>
    intro s s' h
    simp only [runPairs, Option.some.injEq] at h
    subst h
    simp
  | cons q qs ih =>
    intro s s' h
    unfold runPairs at h
    split at h
    · exact Option.noConfusion h
    next s1 heq =>
      have hb := ih s1 s' h
      have hp := answerAdvancePair_score s q s1 heq
      simp only [List.length_cons]
      omega

/-- C2: starting from a fresh session (score 0), along any sequence of
answer/advance pairs the score never decreases, stays non-negative, and
after every pair is bounded by the number of items answered so far. -/
theorem score_invariants (s sa s' : GameState) (as bs : List String)
    (hfresh : s.score = 0)
    (ha : runPairs s as = some sa) (hb : runPairs sa bs = some s') :
    sa.score ≤ s'.score ∧ 0 ≤ s'.score ∧ s'.score ≤ (as ++ bs).length := by
  have h1 := runPairs_score_bounds as s sa ha
  have h2 := runPairs_score_bounds bs sa s' hb
  simp only [List.length_append]
  omega

/-- The state after answering `q4` (correct) on `sTwo` and letting the
advance fire. -/
def sPairA : GameState :=
  { sTwo with score := 1, currentActivityIndex := 1, presented := [0, 1],
              pending := 0 }

/-- The state after then answering `q1` (correct) on the second item; the
advance runs off the end and completes the game. -/
def sPairB : GameState :=
  { sPairA with score := 2, screen := .complete }

/-- Witness for C2: the two-answer session `q4` then `q1` on `sTwo`. -/
theorem score_invariants_witness :
    sPairA.score ≤ sPairB.score ∧ 0 ≤ sPairB.score
    ∧ sPairB.score ≤ (["q4"] ++ ["q1"]).length :=
  score_invariants sTwo sPairA sPairB ["q4"] ["q1"] rfl rfl rfl

/-! No session operation ever writes `totalActivities`; only a successful
load does. -/

theorem total_displayActivity (t : GameState) (i : Nat) :
    (displayActivity t i).totalActivities = t.totalActivities := by
  unfold displayActivity endGame
  split <;> rfl

theorem total_showNextActivity (t : GameState) :
    (showNextActivity t).totalActivities = t.totalActivities := by
  unfold showNextActivity
  split
  · rfl
  · exact total_displayActivity t _

theorem total_timerFire (t : GameState) :
    (timerFire t).totalActivities = t.totalActivities := by
  unfold timerFire
  split
  · rfl
  · exact total_showNextActivity t

theorem total_startGame (t : GameState) :
    (startGame t).totalActivities = t.totalActivities := by
  unfold startGame
  split
  · rfl
  · exact total_displayActivity _ 0

theorem total_resetGame (t : GameState) :
    (resetGame t).totalActivities = t.totalActivities :=
  total_startGame _

theorem total_resetGameToLanguage (t : GameState) :
    (resetGameToLanguage t).totalActivities = t.totalActivities := by
  unfold resetGameToLanguage
  dsimp only
  split
  · exact total_displayActivity _ 0
  · rfl

theorem total_changeLanguage (t : GameState) (l : String) :
    (changeLanguage t l).totalActivities = t.totalActivities := by
  unfold changeLanguage
  split
  · exact total_resetGameToLanguage _
  · rfl

theorem total_step (s s' : GameState) (e : Event) (h : step s e = some s') :
    s'.totalActivities = s.totalActivities := by
  cases e with
  | answer q =>
    simp only [step] at h
    cases hsel : selectQuadrant s q with
    | none => rw [hsel] at h; exact Option.noConfusion h
    | some r =>
      rw [hsel] at h
      simp only [Option.map_some', Option.some.injEq] at h
      obtain ⟨b, s1⟩ := r
      rw [← h]
      exact (selectQuadrant_effects s q b s1 hsel).2.2.2.2.2.2.1
  | fire =>
    simp only [step, Option.some.injEq] at h
    rw [← h]
    exact total_timerFire s
  | reset =>
    simp only [step, Option.some.injEq] at h
    rw [← h]
    exact total_resetGame s
  | setLang l =>
    simp only [step, Option.some.injEq] at h
    rw [← h]
    exact total_changeLanguage s l

/-- C6: the completion accuracy rendered by `endGame` is
`round(score / totalActivities * 100)`; empty content makes the load fail
with the blocking error message and present nothing, so the quiz cannot
start; a successful load records a positive `totalActivities`, and no
session operation changes it — the division at completion always has a
positive denominator. -/
theorem accuracy_and_empty_content_guard (s s' : GameState) (e : Event)
    (hpos : 0 < s.totalActivities) (hstep : step s e = some s') :
    0 < s'.totalActivities
    ∧ (∀ sc tot : Nat,
        completionAccuracy sc tot = round ((sc : ℚ) / (tot : ℚ) * 100))
    ∧ (∀ (t : GameState) (rand : Nat → Nat),
        (loadActivitiesData t rand []).screen = Screen.errorMsg
        ∧ (loadActivitiesData t rand []).presented = t.presented)
    ∧ (∀ (t : GameState) (rand : Nat → Nat) (data : List Activity),
        data ≠ [] →
          (loadActivitiesData t rand data).totalActivities = data.length) := by
  refine ⟨?_, ?_, ?_, ?_⟩
  · rw [total_step s s' e hstep]
    exact hpos
  · intro sc tot
    rw [completionAccuracy, mathRound, round_eq]
  · intro t rand
    exact ⟨rfl, rfl⟩
  · intro t rand data hd
    have hlen : ¬ data.length = 0 := by
      simpa [List.length_eq_zero] using hd
    unfold loadActivitiesData
    rw [if_neg hlen, total_startGame]

/-- Witness for C6 at `sTwo` (2 activities) with a fire event (a no-op,
since nothing is pending). -/
theorem accuracy_and_empty_content_guard_witness :
    0 < sTwo.totalActivities
    ∧ (∀ sc tot : Nat,
        completionAccuracy sc tot = round ((sc : ℚ) / (tot : ℚ) * 100))
    ∧ (∀ (t : GameState) (rand : Nat → Nat),
        (loadActivitiesData t rand []).screen = Screen.errorMsg
        ∧ (loadActivitiesData t rand []).presented = t.presented)
    ∧ (∀ (t : GameState) (rand : Nat → Nat) (data : List Activity),
        data ≠ [] →
          (loadActivitiesData t rand data).totalActivities = data.length) :=
  accuracy_and_empty_content_guard sTwo sTwo Event.fire (by decide) rfl

/-- C3 counterexample: on a concrete session whose shuffle order is the
non-identity permutation of its two activities, both `resetGame` and a
successful `changeLanguage` keep the shuffle order exactly as it was — no
fresh reshuffle happens (neither function even consumes randomness). -/
theorem reset_retains_order_cex :
    sTwo.activities = [actA, actB]
    ∧ sTwo.shuffled = [actB, actA]
    ∧ (resetGame sTwo).shuffled = sTwo.shuffled
    ∧ (changeLanguage sTwo "pt").shuffled = sTwo.shuffled
    ∧ sTwo.shuffled ≠ sTwo.activities := by
  refine ⟨rfl, rfl, rfl, rfl, ?_⟩
  intro h
  have h2 : actB.correctQuadrant = actA.correctQuadrant := by
    rw [show sTwo.shuffled = [actB, actA] from rfl,
        show sTwo.activities = [actA, actB] from rfl] at h
    rw [List.cons.injEq] at h
    exact congrArg Activity.correctQuadrant h.1
  simp [actA, actB] at h2

/-- C3 amended: `resetGame` and a successful `changeLanguage` zero the score
and the position and re-enter the active phase at the first item, but the
session's shuffle order is retained unchanged — it is regenerated only when
content is (re)loaded. -/
theorem reset_zeroes_and_keeps_order (s : GameState) (language : String)
    (hsh : s.shuffled ≠ []) (hact : s.activities ≠ [])
    (hl : language ∈ s.langs) :
    (resetGame s).score = 0
    ∧ (resetGame s).currentActivityIndex = 0
    ∧ (resetGame s).screen = Screen.showing
    ∧ (resetGame s).shuffled = s.shuffled
    ∧ (changeLanguage s language).score = 0
    ∧ (changeLanguage s language).currentActivityIndex = 0
    ∧ (changeLanguage s language).screen = Screen.showing
    ∧ (changeLanguage s language).shuffled = s.shuffled
    ∧ (changeLanguage s language).currentLanguage = language := by
  have ha0 : ¬ s.activities.length = 0 := by
    simpa [List.length_eq_zero] using hact
  have hs0 : ¬ s.shuffled.length ≤ 0 := by
    rw [Nat.le_zero]
    simpa [List.length_eq_zero] using hsh
  unfold resetGame changeLanguage resetGameToLanguage startGame displayActivity
  rw [if_pos hl]
  simp [ha0, hs0, Nat.pos_iff_ne_zero]

/-- Witness for C3 (amended) at `sTwo` with language `pt`. -/
theorem reset_zeroes_and_keeps_order_witness :
    (resetGame sTwo).score = 0
    ∧ (resetGame sTwo).currentActivityIndex = 0
    ∧ (resetGame sTwo).screen = Screen.showing
    ∧ (resetGame sTwo).shuffled = sTwo.shuffled
    ∧ (changeLanguage sTwo "pt").score = 0
    ∧ (changeLanguage sTwo "pt").currentActivityIndex = 0
    ∧ (changeLanguage sTwo "pt").screen = Screen.showing
    ∧ (changeLanguage sTwo "pt").shuffled = sTwo.shuffled
    ∧ (changeLanguage sTwo "pt").currentLanguage = "pt" :=
  reset_zeroes_and_keeps_order sTwo "pt" (by simp [sTwo]) (by simp [sTwo])
    (by decide)

/-- A localized description whose Portuguese entry is present but empty. -/
def mPT : String → Option String :=
  fun l => if l = "pt" then some "" else if l = "en" then some "hello" else none

/-- C5 counterexample: with the active language `pt` present in the mapping
(as the empty string), resolution returns the `en` value, not the `pt`
value — `description[currentLanguage] || description.en` treats the empty
string as falsy. -/
theorem resolve_present_but_empty_cex :
    mPT "pt" = some ""
    ∧ resolveDescription "pt" (.localized mPT) = some "hello"
    ∧ some "hello" ≠ (some "" : Option String) := by
  refine ⟨rfl, rfl, by decide⟩

/-- C5 amended: resolution returns the active language's string when it is
present and non-empty; when the key is absent — or present but equal to the
empty string, which JS `||` treats as falsy — it returns the `en` entry; a
plain-string description is returned unchanged for every language. -/
theorem resolveDescription_fallback (lang : String)
    (m : String → Option String) (t : String) (hm : m lang = some t) :
    (t ≠ "" → resolveDescription lang (.localized m) = some t)
    ∧ (t = "" → resolveDescription lang (.localized m) = m "en")
    ∧ (∀ m' : String → Option String, m' lang = none →
        resolveDescription lang (.localized m') = m' "en")
    ∧ (∀ p : String, resolveDescription lang (.plain p) = some p) := by
  refine ⟨?_, ?_, ?_, fun p => rfl⟩
  · intro ht
    simp [resolveDescription, jsOr, hm, ht]
  · intro ht
    simp [resolveDescription, jsOr, hm, ht]
  · intro m' hm'
    simp [resolveDescription, jsOr, hm']

/-- Witness for C5 (amended), applied at language `pt` and mapping `mPT`. -/
theorem resolveDescription_fallback_witness :
    (("" : String) ≠ "" → resolveDescription "pt" (.localized mPT) = some "")
    ∧ (("" : String) = "" → resolveDescription "pt" (.localized mPT) = mPT "en")
    ∧ (∀ m' : String → Option String, m' "pt" = none →
        resolveDescription "pt" (.localized m') = m' "en")
    ∧ (∀ p : String, resolveDescription "pt" (.plain p) = some p) :=
  resolveDescription_fallback "pt" mPT "" rfl

/-- A completed one-activity session: the item at index 0 was answered
correctly (score 1) and the advance ran off the end (`endGame`), leaving
`currentActivityIndex` at 0. -/
def sDone : GameState :=
  { activities := [actA]
    shuffled := [actA]
    currentActivityIndex := 0
    score := 1
    totalActivities := 1
    currentLanguage := "en"
    langs := ["en", "pt"]
    savedLanguage := some "en"
    pending := 0
    presented := [0]
    screen := .complete }

/-- The page state before any content has loaded. -/
def sFresh : GameState :=
  { activities := []
    shuffled := []
    currentActivityIndex := 0
    score := 0
    totalActivities := 0
    currentLanguage := "en"
    langs := []
    savedLanguage := none
    pending := 0
    presented := []
    screen := .loading }

/-- C8 evaluated at its failing inputs: the keydown listener has no phase
guard, so after completion pressing key 1 re-evaluates the last activity —
silently pushing the score past `totalActivities` and scheduling another
advance — and before content has loaded it throws (reads
`.correctQuadrant` of `undefined`); neither path signals `NoActiveItem`. -/
theorem keydown_has_no_phase_guard :
    sDone.screen = Screen.complete
    ∧ keydown sDone 1 = some { sDone with score := 2, pending := 1 }
    ∧ sDone.totalActivities
        < ({ sDone with score := 2, pending := 1 } : GameState).score
    ∧ keydown sFresh 1 = none :=
  ⟨rfl, rfl, by decide, rfl⟩

/-- C9 evaluated at its failing trace: answer once on `sTwo` (scheduling one
advance), reset the game, then let the stale timeout fire — it runs
`showNextActivity` against the freshly reset session and advances its
position from 0 to 1, skipping the new session's first item.  Nothing tags
or cancels the pending callback (`resetGame` leaves `pending` at 1). -/
theorem stale_timeout_advances_new_session :
    selectQuadrant sTwo "q4" = some (true, { sTwo with score := 1, pending := 1 })
    ∧ resetGame { sTwo with score := 1, pending := 1 }
        = { sTwo with score := 0, pending := 1, presented := [0, 0] }
    ∧ (resetGame { sTwo with score := 1, pending := 1 }).currentActivityIndex = 0
    ∧ (timerFire (resetGame { sTwo with score := 1, pending := 1 })).currentActivityIndex
        = 1 :=
  ⟨rfl, rfl, rfl, rfl⟩

/-- A three-activity session awaiting its first answer. -/
def sThree : GameState :=
  { activities := [actA, actB, actC]
    shuffled := [actA, actB, actC]
    currentActivityIndex := 0
    score := 0
    totalActivities := 3
    currentLanguage := "en"
    langs := ["en", "pt"]
    savedLanguage := some "en"
    pending := 0
    presented := [0]
    screen := .showing }

/-- The state after clicking `q1` twice on `sThree`'s first item: the item
is re-evaluated (score 2) and two advances are pending. -/
def sBurst : GameState :=
  { sThree with score := 2, pending := 2 }

/-- C10 counterexample: after two answers on one displayed item and the two
resulting advance firings, the position has jumped to 2 — but the
intermediate item 1 was presented (each firing runs `displayActivity` on
it), contradicting "skipped without ever being presented". -/
theorem intermediate_item_is_presented_cex :
    answerRepeat "q1" 2 sThree = some sBurst
    ∧ (fireRepeat 2 sBurst).currentActivityIndex = 2
    ∧ 1 ∈ (fireRepeat 2 sBurst).presented
    ∧ 1 ∉ sThree.presented :=
  ⟨rfl, rfl, by decide, by decide⟩

theorem answerRepeat_effects (q : String) (k : Nat) :
    ∀ (s : GameState) (act : Activity),
      s.shuffled[s.currentActivityIndex]? = some act →
      ∃ s1 : GameState, answerRepeat q k s = some s1
        ∧ s1.currentActivityIndex = s.currentActivityIndex
        ∧ s1.pending = s.pending + k
        ∧ s1.shuffled = s.shuffled := by
  induction k with
  | zero =>
    intro s act hact
    exact ⟨s, rfl, rfl, (Nat.add_zero _).symm, rfl⟩
  | succ k ih =>
    intro s act hact
    have hsel : ∃ b s1, selectQuadrant s q = some (b, s1) := by
      unfold selectQuadrant
      rw [hact]
      exact ⟨_, _, rfl⟩
    obtain ⟨b, s1, hsel⟩ := hsel
    have he := selectQuadrant_effects s q b s1 hsel
    have hact1 : s1.shuffled[s1.currentActivityIndex]? = some act := by
      rw [he.2.2.1, he.2.2.2.1]
      exact hact
    obtain ⟨s2, hrun, hidx, hpend, hshuf⟩ := ih s1 act hact1
    refine ⟨s2, ?_, ?_, ?_, ?_⟩
    · show answerRepeat q (k + 1) s = some s2
      unfold answerRepeat
      rw [hsel]
      exact hrun
    · rw [hidx, he.2.2.2.1]
    · rw [hpend, he.2.2.2.2.1]
      omega
    · rw [hshuf, he.2.2.1]

theorem fireRepeat_advances (k : Nat) :
    ∀ s : GameState, k ≤ s.pending →
      s.currentActivityIndex + k < s.shuffled.length →
      (fireRepeat k s).currentActivityIndex = s.currentActivityIndex + k
      ∧ (fireRepeat k s).pending = s.pending - k
      ∧ (fireRepeat k s).score = s.score
      ∧ (fireRepeat k s).shuffled = s.shuffled := by
  induction k with
  | zero =>
    intro s _ _
    exact ⟨rfl, rfl, rfl, rfl⟩
  | succ k ih =>
    intro s hp hlen
    have hp0 : ¬ s.pending = 0 := by omega
    have hnext : ¬ s.shuffled.length ≤ s.currentActivityIndex + 1 := by omega
    have h1 : (timerFire s).currentActivityIndex = s.currentActivityIndex + 1 := by
      simp [timerFire, showNextActivity, displayActivity, hp0, hnext]
    have h2 : (timerFire s).pending = s.pending - 1 := by
      simp [timerFire, showNextActivity, displayActivity, hp0, hnext]
    have h4 : (timerFire s).shuffled = s.shuffled := by
      simp [timerFire, showNextActivity, displayActivity, hp0, hnext]
    obtain ⟨i1, i2, i3, i4⟩ :=
      ih (timerFire s) (by omega) (by rw [h1, h4]; omega)
    have hstep : fireRepeat (k + 1) s = fireRepeat k (timerFire s) := rfl
    refine ⟨?_, ?_, ?_, ?_⟩
    · rw [hstep, i1, h1]
      omega
    · rw [hstep, i2, h2]
      omega
    · rw [hstep, i3, score_timerFire]
    · rw [hstep, i4, h4]

/-- C10 amended: every `selectQuadrant` call unconditionally schedules one
advance and nothing ever cancels or deduplicates them: `k` calls while a
single item stays displayed leave the position unchanged with `k` advances
pending, and once those `k` callbacks fire the position has moved forward by
`k` — the intermediate items are each displayed only momentarily between
consecutive firings and are never answered (the score does not change while
the queue drains). -/
theorem burst_answers_advance_by_k (s : GameState) (q : String)
    (act : Activity) (k : Nat)
    (hact : s.shuffled[s.currentActivityIndex]? = some act)
    (hp : s.pending = 0)
    (hk : s.currentActivityIndex + k < s.shuffled.length) :
    ∃ s1 : GameState, answerRepeat q k s = some s1
      ∧ s1.currentActivityIndex = s.currentActivityIndex
      ∧ s1.pending = k
      ∧ (fireRepeat k s1).currentActivityIndex = s.currentActivityIndex + k
      ∧ (fireRepeat k s1).pending = 0
      ∧ (fireRepeat k s1).score = s1.score := by
  obtain ⟨s1, hrun, hidx, hpend, hshuf⟩ := answerRepeat_effects q k s act hact
  have hp1 : s1.pending = k := by omega
  have hkl : s1.currentActivityIndex + k < s1.shuffled.length := by
    rw [hidx, hshuf]
    exact hk
  obtain ⟨f1, f2, f3, f4⟩ := fireRepeat_advances k s1 (by omega) hkl
  exact ⟨s1, hrun, hidx, hp1, by rw [f1, hidx], by omega, f3⟩

/-- Witness for C10 (amended): two clicks of `q1` on `sThree`. -/
theorem burst_answers_advance_by_k_witness :
    ∃ s1 : GameState, answerRepeat "q1" 2 sThree = some s1
      ∧ s1.currentActivityIndex = sThree.currentActivityIndex
      ∧ s1.pending = 2
      ∧ (fireRepeat 2 s1).currentActivityIndex = sThree.currentActivityIndex + 2
      ∧ (fireRepeat 2 s1).pending = 0
      ∧ (fireRepeat 2 s1).score = s1.score :=
  burst_answers_advance_by_k sThree "q1" actA 2 rfl rfl (by decide)

end TimeMatrix
